import Mathlib

/-!
Verification of the contract-document QA pipeline core of the
Sponsorship Sales and Activation Machine repository.

The embedded code comes from:
  * `src/services/vectorstores.py` — `build_vectorstore_from_chunks`
  * `src/services/storage.py` — `build_contract_store`
  * `src/services/s3store.py` — `s3_enabled`, `upload_bytes`
  * `src/models/schemas.py` — `ContractQA`

Python strings are modelled as Lean `String`s (character sequences);
`os.getenv` results as `Option String` (`none` = unset); Python truthiness
of such a value is "set and non-empty". `str.lower()` is modelled as a
per-character lowering of the underlying character list. Exceptions from
external calls are modelled with `Except`; functions that cannot raise are
total. Failures of the external embedding service (the spec's
`EmbeddingFailure`, which propagates by design) are outside this model:
all claims here concern the code-level control flow around it.
-/

/-- Python truthiness of an `os.getenv` result: `None` and `""` are falsy. -/
def truthy : Option String → Bool
  | none => false
  | some s => !s.isEmpty

/-- Python `x or d` for `x = os.getenv(...)`: the default replaces a falsy value. -/
def pyOr (x : Option String) (d : String) : String :=
  match x with
  | none => d
  | some s => if s.isEmpty then d else s

/-- Python `os.getenv(name, default)`: the default replaces only an unset value. -/
def getenvD (x : Option String) (d : String) : String :=
  x.getD d

/-- Python `s.lower()`: each character lowered. -/
def pyLower (s : String) : String :=
  String.mk (s.data.map Char.toLower)

/-- The environment variables read by the pipeline (`none` = unset). -/
structure PipelineEnv where
  vectorDbProvider : Option String
  pineconeApiKey : Option String
  pineconeEnvironment : Option String
  pineconeIndex : Option String
  qdrantUrl : Option String
  qdrantApiKey : Option String
  qdrantCollection : Option String
  embedModelVar : Option String
deriving Repr

/-- The retriever handle returned by `vectordb.as_retriever(search_kwargs={"k": 5})`,
tagged with the backing vector store that was built. -/
inductive Retriever where
  | chroma (persistDirectory : Option String) (k : Nat)
  | pinecone (indexName : String) (k : Nat)
  | qdrant (url : String) (collection : String) (k : Nat)
deriving Repr, DecidableEq

/-- The provider string computed on line 12 of `src/services/vectorstores.py`:
`(os.getenv("VECTOR_DB_PROVIDER") or "pinecone").lower()`. -/
def providerOf (env : PipelineEnv) : String :=
  pyLower (pyOr env.vectorDbProvider "pinecone")

/-- `build_vectorstore_from_chunks` from `src/services/vectorstores.py`.
Returns `(retriever, n_chunks, provider_used)`. The chunk type is abstract
because the function never inspects chunk contents, only `len(chunks)`.
Network calls of the configured pinecone/qdrant paths are modelled as
succeeding; the function itself contains no empty-chunk check. -/
def build_vectorstore_from_chunks {α : Type} (env : PipelineEnv) (chunks : List α)
    (_embed_model : String) : Option Retriever × Nat × String :=
  let provider := providerOf env
  if provider = "pinecone" then
    let api_key := env.pineconeApiKey
    let penv := env.pineconeEnvironment
    let index_name := getenvD env.pineconeIndex "sports_ai"
    if !truthy api_key || !truthy penv then
      (some (Retriever.chroma none 5), chunks.length, "chroma (fallback)")
    else
      (some (Retriever.pinecone index_name 5), chunks.length, "pinecone")
  else if provider = "qdrant" then
    let url := env.qdrantUrl
    let collection := getenvD env.qdrantCollection "sports_ai"
    if !truthy url then
      (some (Retriever.chroma none 5), chunks.length, "chroma (fallback)")
    else
      (some (Retriever.qdrant (url.getD "") collection 5), chunks.length, "qdrant")
  else
    (some (Retriever.chroma none 5), chunks.length, "chroma")

/-- One page of one source document, as produced by `PyPDFLoader.load()`:
a langchain `Document` with `metadata={"source": path, "page": i}`. -/
structure PageRecord where
  sourcePath : String
  pageIndex : Nat
  text : String
deriving Repr, DecidableEq

/-- The filesystem visible to `build_contract_store`: which paths exist
(`Path(p).exists()`), and the per-page text `PyPDFLoader` extracts. -/
structure FileSys where
  pathExists : String → Bool
  pageTexts : String → List String

/-- `PyPDFLoader(p).load()`: one `PageRecord` per extracted page, in page order. -/
def loadPDF (fs : FileSys) (p : String) : List PageRecord :=
  (fs.pageTexts p).enum.map (fun it => ⟨p, it.1, it.2⟩)

/-- The S3 world of `src/services/s3store.py`: the `S3_BUCKET` variable, the
outcome of `put_object` per key (`error` = a raised Boto error), and the
outcome of `open(p, "rb").read()` per path (`error` = a raised OSError). -/
structure S3World where
  bucket : Option String
  putObject : String → Except String Unit
  readFile : String → Except String Unit

/-- `s3_enabled` from `src/services/s3store.py`: `bool(os.getenv("S3_BUCKET"))`. -/
def s3_enabled (w : S3World) : Bool :=
  truthy w.bucket

/-- `upload_bytes` from `src/services/s3store.py` (lines 19–28): returns the key
on success, `None` when disabled or when a Boto error was caught; the second
component is the log it prints. It never raises on a Boto error. -/
def upload_bytes (w : S3World) (key : String) : Option String × List String :=
  if s3_enabled w = false then (none, [])
  else
    match w.putObject key with
    | Except.ok _ => (some key, [])
    | Except.error e => (none, ["S3 upload error: " ++ e])

/-- Python `Path(p).name`: the final path component. -/
def pathName (p : String) : String :=
  (p.splitOn "/").getLastD p

/-- The extension test on line 15 of `src/services/storage.py`:
`p.lower().endswith(".pdf")`. -/
def hasPdfExt (p : String) : Bool :=
  (".pdf".data).isSuffixOf ((pyLower p).data)

/-- A path survives the filter on line 15 of `src/services/storage.py` iff it has
the `.pdf` extension (case-insensitively) and exists. -/
def validPath (fs : FileSys) (p : String) : Bool :=
  hasPdfExt p && fs.pathExists p

/-- The `try` block on lines 19–24 of `src/services/storage.py`, run per accepted
path when S3 is enabled: read the file and call `upload_bytes`; an exception is
caught and printed as a warning. Returns the warnings printed. -/
def archiveAttempt (w : S3World) (p : String) : List String :=
  if s3_enabled w then
    match w.readFile p with
    | Except.ok _ => (upload_bytes w ("contracts/" ++ pathName p)).2
    | Except.error e => ["S3 upload warning: " ++ e]
  else []

/-- The loader loop of `build_contract_store` (lines 13–26 of
`src/services/storage.py`): skip paths failing the extension/existence check,
archive accepted ones best-effort, and extend `docs` with their pages.
Returns `(docs, warnings printed)`. -/
def loadDocs (fs : FileSys) (w : S3World) : List String → List PageRecord × List String
  | [] => ([], [])
  | p :: ps =>
    let rest := loadDocs fs w ps
    if validPath fs p then
      (loadPDF fs p ++ rest.1, archiveAttempt w p ++ rest.2)
    else
      rest

/-- Module-level `EMBED_MODEL = os.getenv("EMBED_MODEL", "text-embedding-3-small")`
from `src/services/storage.py`. -/
def EMBED_MODEL (env : PipelineEnv) : String :=
  getenvD env.embedModelVar "text-embedding-3-small"

/-- `build_contract_store` from `src/services/storage.py`. The chunking step
(`RecursiveCharacterTextSplitter(chunk_size=1000, chunk_overlap=150)
.split_documents`) is an external langchain call, taken as an abstract
`splitter` parameter. Returns the `(retriever, n_chunks, provider)` triple
together with the warnings printed along the way. -/
def build_contract_store (env : PipelineEnv) (fs : FileSys) (w : S3World)
    (splitter : List PageRecord → List PageRecord)
    (pdf_paths : List String) (persist_dir : Option String) :
    (Option Retriever × Nat × String) × List String :=
  let docs := (loadDocs fs w pdf_paths).1
  let warns := (loadDocs fs w pdf_paths).2
  if docs.isEmpty then ((none, 0, "none"), warns)
  else
    let chunks := splitter docs
    (build_vectorstore_from_chunks env chunks (EMBED_MODEL env), warns)

/-- Modelled from the spec: the query entrypoint's source-page computation is
not present under `src/` (only the `ContractQA` schema in
`src/models/schemas.py` declares its `pages` field). Per §4.3: collect each
retrieved chunk's `page_index`, filter out sentinel values (`page_index < 0`),
add 1 for one-based numbering, deduplicate via a set, and sort ascending.
`sortedInsert`/`sortedSet` model Python's `sorted(set(xs))`. -/
def sortedInsert (x : Int) : List Int → List Int
  | [] => [x]
  | y :: ys =>
    if x < y then x :: y :: ys
    else if x = y then y :: ys
    else y :: sortedInsert x ys

/-- Modelled from the spec: Python `sorted(set(xs))` — strictly ascending,
duplicate-free enumeration of the elements of `xs`. -/
def sortedSet (xs : List Int) : List Int :=
  xs.foldr sortedInsert []

/-- Modelled from the spec: the source-page list of an answer — retrieved
chunks' `page_index` values, negatives filtered out, incremented to one-based
numbering, deduplicated and sorted ascending. -/
def source_pages (pageIdxs : List Int) : List Int :=
  sortedSet ((pageIdxs.filter (fun i => !decide (i < 0))).map (fun i => i + 1))

/- ### Concrete worlds for witnesses and counterexamples -/

/-- An environment with every variable unset. -/
def envUnset : PipelineEnv :=
  ⟨none, none, none, none, none, none, none, none⟩

/-- An environment selecting an unrecognized provider value. -/
def envFaiss : PipelineEnv :=
  ⟨some "faiss", none, none, none, none, none, none, none⟩

/-- A filesystem with no files. -/
def fsEmpty : FileSys :=
  ⟨fun _ => false, fun _ => []⟩

/-- A filesystem where every path exists and has no pages. -/
def fsAll : FileSys :=
  ⟨fun _ => true, fun _ => []⟩

/-- An S3 world with no bucket configured. -/
def s3Off : S3World :=
  ⟨none, fun _ => Except.ok (), fun _ => Except.ok ()⟩

/- ### Helper lemmas -/

/-- The `docs` component of the loader loop: pages of the valid paths, in
input order. -/
theorem loadDocs_docs_eq (fs : FileSys) (w : S3World) (paths : List String) :
    (loadDocs fs w paths).1 = (paths.filter (validPath fs)).flatMap (loadPDF fs) := by
  induction paths with
  | nil => rfl
  | cons p ps ih =>
    by_cases h : validPath fs p = true
    · simp [loadDocs, List.filter_cons, h, ih]
    · simp only [Bool.not_eq_true] at h
      simp [loadDocs, List.filter_cons, h, ih]

/-- The result triple of `build_contract_store`, with the S3 world and the
warnings projected away. -/
theorem build_contract_store_fst (env : PipelineEnv) (fs : FileSys) (w : S3World)
    (splitter : List PageRecord → List PageRecord)
    (paths : List String) (pd : Option String) :
    (build_contract_store env fs w splitter paths pd).1 =
      (if ((paths.filter (validPath fs)).flatMap (loadPDF fs)).isEmpty then
        (none, 0, "none")
      else
        build_vectorstore_from_chunks env
          (splitter ((paths.filter (validPath fs)).flatMap (loadPDF fs)))
          (EMBED_MODEL env)) := by
  simp only [build_contract_store, loadDocs_docs_eq]
  by_cases h : ((paths.filter (validPath fs)).flatMap (loadPDF fs)).isEmpty
  · simp [h]
  · simp [h]

/- ### Claims -/

/-- C1: for every non-empty chunk list, when the selected provider is
`pinecone` and the API key or environment identifier is absent,
`build_vectorstore_from_chunks` does not raise (it is total), builds a local
Chroma index, reports the provider used as `"chroma (fallback)"`, and returns
a non-null retriever. -/
theorem pinecone_fallback {α : Type} (env : PipelineEnv) (chunks : List α) (m : String)
    (hprov : providerOf env = "pinecone")
    (hmiss : truthy env.pineconeApiKey = false ∨ truthy env.pineconeEnvironment = false)
    (_hne : chunks ≠ []) :
    build_vectorstore_from_chunks env chunks m =
      (some (Retriever.chroma none 5), chunks.length, "chroma (fallback)") := by
  unfold build_vectorstore_from_chunks
  simp only [hprov, if_pos rfl]
  rcases hmiss with h | h <;> simp [h]

/-- Witness for C1 at a fully-unset environment and a one-element chunk list. -/
theorem pinecone_fallback_witness :
    build_vectorstore_from_chunks envUnset [()] "text-embedding-3-small" =
      (some (Retriever.chroma none 5), 1, "chroma (fallback)") :=
  pinecone_fallback envUnset [()] "text-embedding-3-small" (by decide)
    (Or.inl (by decide)) (by decide)

/-- C2 counterexample: with the provider set to the unrecognized value
"faiss" (all else unset), the builder returns the plain label "chroma", while
the identical call under the default pinecone selection returns
"chroma (fallback)": an unrecognized value does not behave as the default
pinecone selection. -/
theorem provider_default_counterexample :
    (build_vectorstore_from_chunks envFaiss [()] "m").2.2 = "chroma" ∧
    (build_vectorstore_from_chunks envUnset [()] "m").2.2 = "chroma (fallback)" ∧
    ("chroma" : String) ≠ "chroma (fallback)" :=
  ⟨by decide, by decide, by decide⟩

/-- C2 (amended): an unset or empty provider value defaults to "pinecone"; a
set, non-empty value that is not (case-insensitively) "pinecone" or "qdrant" —
in particular any unrecognized value — falls through to the local chroma
branch and is reported plainly as "chroma". -/
theorem provider_default_amended (env : PipelineEnv) :
    (truthy env.vectorDbProvider = false → providerOf env = "pinecone") ∧
    (providerOf env ≠ "pinecone" → providerOf env ≠ "qdrant" →
      ∀ (α : Type) (chunks : List α) (m : String),
        build_vectorstore_from_chunks env chunks m =
          (some (Retriever.chroma none 5), chunks.length, "chroma")) := by
  constructor
  · intro h
    unfold providerOf
    cases hv : env.vectorDbProvider with
    | none => decide
    | some s =>
      rw [hv] at h
      simp only [truthy, Bool.not_eq_false'] at h
      have hp : pyOr (some s) "pinecone" = "pinecone" := by simp [pyOr, h]
      rw [hp]; decide
  · intro h1 h2 α chunks m
    simp only [build_vectorstore_from_chunks]
    rw [if_neg h1, if_neg h2]

/-- Witness for C2's amended theorem: the unset default resolves to pinecone,
and the unrecognized value "faiss" lands in the plain chroma branch. -/
theorem provider_default_amended_witness :
    providerOf envUnset = "pinecone" ∧
    build_vectorstore_from_chunks envFaiss [()] "m" =
      (some (Retriever.chroma none 5), 1, "chroma") :=
  ⟨(provider_default_amended envUnset).1 (by decide),
   (provider_default_amended envFaiss).2 (by decide) (by decide) Unit [()] "m"⟩

/-- C3 counterexample: with every variable unset (default provider pinecone,
credentials missing), `build_vectorstore_from_chunks` on an empty chunk list
returns a non-null Chroma retriever labelled "chroma (fallback)" — not the
sentinel (None, 0, "none"). -/
theorem empty_chunks_counterexample :
    build_vectorstore_from_chunks envUnset ([] : List PageRecord) "m" =
      (some (Retriever.chroma none 5), 0, "chroma (fallback)") ∧
    (some (Retriever.chroma none 5), 0, ("chroma (fallback)" : String)) ≠
      ((none : Option Retriever), 0, ("none" : String)) :=
  ⟨by decide, by decide⟩

/-- C3 (amended): the (None, 0, "none") sentinel is produced by
`build_contract_store` when the loader produced no pages, before chunking or
index building; `build_vectorstore_from_chunks` itself performs no empty-chunk
check and, for an empty chunk list, returns a non-null retriever with chunk
count 0 under every provider selection. -/
theorem empty_corpus_sentinel (env : PipelineEnv) (fs : FileSys) (w : S3World)
    (splitter : List PageRecord → List PageRecord) (paths : List String)
    (pd : Option String)
    (h : (loadDocs fs w paths).1 = []) :
    (build_contract_store env fs w splitter paths pd).1 = (none, 0, "none") ∧
    ∀ (m : String),
      (build_vectorstore_from_chunks env ([] : List PageRecord) m).1 ≠ none ∧
      (build_vectorstore_from_chunks env ([] : List PageRecord) m).2.1 = 0 := by
  constructor
  · simp [build_contract_store, h]
  · intro m
    simp only [build_vectorstore_from_chunks]
    split
    · split <;> exact ⟨by simp, rfl⟩
    · split
      · split <;> exact ⟨by simp, rfl⟩
      · exact ⟨by simp, rfl⟩

/-- Witness for C3's amended theorem at a concrete world with one invalid path. -/
theorem empty_corpus_sentinel_witness :
    (build_contract_store envUnset fsEmpty s3Off id ["a.txt"] none).1 = (none, 0, "none") ∧
    ((build_vectorstore_from_chunks envUnset ([] : List PageRecord) "m").1 ≠ none ∧
      (build_vectorstore_from_chunks envUnset ([] : List PageRecord) "m").2.1 = 0) := by
  have h := empty_corpus_sentinel envUnset fsEmpty s3Off id ["a.txt"] none (by decide)
  exact ⟨h.1, h.2 "m"⟩

/-- C5: the loader processes exactly the valid paths (existing file with a
case-insensitive .pdf extension), in their original relative order, skipping
invalid ones silently (the loop is total — there is no exception path); every
produced page record references a valid path. -/
theorem loader_filters_paths (fs : FileSys) (w : S3World) (paths : List String) :
    (loadDocs fs w paths).1 = (paths.filter (validPath fs)).flatMap (loadPDF fs) ∧
    ∀ d ∈ (loadDocs fs w paths).1, validPath fs d.sourcePath = true := by
  refine ⟨loadDocs_docs_eq fs w paths, ?_⟩
  intro d hd
  rw [loadDocs_docs_eq] at hd
  rcases List.mem_flatMap.1 hd with ⟨p, hp, hdp⟩
  rcases List.mem_filter.1 hp with ⟨-, hvalid⟩
  rcases List.mem_map.1 hdp with ⟨it, -, rfl⟩
  exact hvalid

/-- C6: when no supplied path passes the extension-and-existence check — in
particular for the empty path list — `build_contract_store` returns exactly
(None, 0, "none"). -/
theorem no_valid_paths_sentinel (env : PipelineEnv) (fs : FileSys) (w : S3World)
    (splitter : List PageRecord → List PageRecord) (paths : List String)
    (pd : Option String)
    (h : ∀ p ∈ paths, validPath fs p = false) :
    (build_contract_store env fs w splitter paths pd).1 = (none, 0, "none") := by
  have hfilter : paths.filter (validPath fs) = [] :=
    List.filter_eq_nil_iff.mpr (by simpa using h)
  rw [build_contract_store_fst, hfilter]
  simp

/-- Witness for C6 at a filesystem with no files and a mixed invalid path list. -/
theorem no_valid_paths_sentinel_witness :
    (build_contract_store envUnset fsEmpty s3Off id ["a.txt", "b.pdf"] none).1 =
      (none, 0, "none") :=
  no_valid_paths_sentinel envUnset fsEmpty s3Off id ["a.txt", "b.pdf"] none (by decide)

/-- C7: the best-effort archive write cannot affect ingestion: for any two S3
worlds with any write/read outcomes (in particular, all writes failing versus
all succeeding), `build_contract_store` returns the same result triple; the
loop is total, so an archive failure is caught and never raises to the
caller. -/
theorem archive_failure_harmless (env : PipelineEnv) (fs : FileSys)
    (splitter : List PageRecord → List PageRecord) (paths : List String)
    (pd : Option String) (b1 b2 : Option String)
    (put1 put2 read1 read2 : String → Except String Unit) :
    (build_contract_store env fs ⟨b1, put1, read1⟩ splitter paths pd).1 =
      (build_contract_store env fs ⟨b2, put2, read2⟩ splitter paths pd).1 := by
  rw [build_contract_store_fst, build_contract_store_fst]

/-- C9: the persist_dir parameter is never read: two calls differing only in
persist_dir return identical results — triple and warnings alike. -/
theorem persist_dir_ignored (env : PipelineEnv) (fs : FileSys) (w : S3World)
    (splitter : List PageRecord → List PageRecord) (paths : List String)
    (pd1 pd2 : Option String) :
    build_contract_store env fs w splitter paths pd1 =
      build_contract_store env fs w splitter paths pd2 := rfl

/-- C10: the extension check of `build_contract_store` is case-insensitive:
an existing path whose name ends in any capitalization of ".pdf" passes the
filter. -/
theorem pdf_ext_case_insensitive (fs : FileSys) (stem sfx : List Char)
    (hsuf : sfx.map Char.toLower = ".pdf".data)
    (hex : fs.pathExists (String.mk (stem ++ sfx)) = true) :
    validPath fs (String.mk (stem ++ sfx)) = true := by
  unfold validPath
  rw [hex, Bool.and_true]
  show (".pdf".data).isSuffixOf ((stem ++ sfx).map Char.toLower) = true
  rw [List.map_append, hsuf]
  exact (List.isSuffixOf_iff_suffix).mpr (List.suffix_append _ _)

/-- Witness for C10: "contract.PDF" passes the filter on a filesystem where it
exists. -/
theorem pdf_ext_case_insensitive_witness :
    validPath fsAll (String.mk ("contract".data ++ ".PDF".data)) = true :=
  pdf_ext_case_insensitive fsAll "contract".data ".PDF".data (by decide) (by decide)

/-- Membership in `sortedInsert`: the inserted element plus the old elements. -/
theorem mem_sortedInsert (x a : Int) (l : List Int) :
    a ∈ sortedInsert x l ↔ a = x ∨ a ∈ l := by
  induction l with
  | nil => simp [sortedInsert]
  | cons y ys ih =>
    unfold sortedInsert
    by_cases h1 : x < y
    · simp [h1]
    · by_cases h2 : x = y
      · subst h2
        rw [if_neg h1, if_pos rfl]
        simp only [List.mem_cons]
        tauto
      · simp only [if_neg h1, if_neg h2, List.mem_cons, ih]
        tauto

/-- `sortedInsert` preserves strict sortedness. -/
theorem sorted_sortedInsert (x : Int) (l : List Int) (h : l.Sorted (· < ·)) :
    (sortedInsert x l).Sorted (· < ·) := by
  induction l with
  | nil => simp [sortedInsert]
  | cons y ys ih =>
    rw [List.sorted_cons] at h
    obtain ⟨hy, hys⟩ := h
    unfold sortedInsert
    by_cases h1 : x < y
    · rw [if_pos h1]
      refine List.sorted_cons.mpr ⟨?_, List.sorted_cons.mpr ⟨hy, hys⟩⟩
      intro b hb
      rcases List.mem_cons.1 hb with rfl | hb
      · exact h1
      · exact lt_trans h1 (hy b hb)
    · rw [if_neg h1]
      by_cases h2 : x = y
      · rw [if_pos h2]
        exact List.sorted_cons.mpr ⟨hy, hys⟩
      · rw [if_neg h2]
        refine List.sorted_cons.mpr ⟨?_, ih hys⟩
        intro b hb
        rcases (mem_sortedInsert x b ys).1 hb with rfl | hb
        · exact lt_of_le_of_ne (le_of_not_lt h1) (fun he => h2 he.symm)
        · exact hy b hb

/-- `sortedSet` is strictly ascending. -/
theorem sorted_sortedSet (xs : List Int) : (sortedSet xs).Sorted (· < ·) := by
  induction xs with
  | nil => simp [sortedSet]
  | cons x xs ih => exact sorted_sortedInsert x (sortedSet xs) ih

/-- `sortedSet` has the same elements as its input. -/
theorem mem_sortedSet (xs : List Int) (a : Int) : a ∈ sortedSet xs ↔ a ∈ xs := by
  induction xs with
  | nil => simp [sortedSet]
  | cons x xs ih =>
    show a ∈ sortedInsert x (sortedSet xs) ↔ a ∈ x :: xs
    rw [mem_sortedInsert, ih, List.mem_cons]

/-- C8: for every list of retrieved page indices, the source-page list
contains exactly the one-based successors of the non-negative indices, is
strictly increasing with no duplicates, and on the single zero-based index 4
yields [5]. -/
theorem source_pages_spec :
    (∀ (idxs : List Int) (p : Int),
      p ∈ source_pages idxs ↔ ∃ i ∈ idxs, 0 ≤ i ∧ p = i + 1) ∧
    (∀ idxs : List Int, (source_pages idxs).Sorted (· < ·)) ∧
    source_pages [4] = [5] := by
  refine ⟨?_, fun idxs => sorted_sortedSet _, by decide⟩
  intro idxs p
  unfold source_pages
  rw [mem_sortedSet]
  simp only [List.mem_map, List.mem_filter, Bool.not_eq_eq_eq_not, Bool.not_true,
    decide_eq_false_iff_not, not_lt]
  constructor
  · rintro ⟨i, ⟨hi, h0⟩, rfl⟩
    exact ⟨i, hi, h0, rfl⟩
  · rintro ⟨i, hi, h0, rfl⟩
    exact ⟨i, ⟨hi, h0⟩, rfl⟩
